import Mathlib

/-!
Verification of the MCP request/response correlation layer of the
merchant-health-dashboard repository.

The development shallowly embeds the two MCP client variants:

- MCPClientService (backend/src/services/mcp-client.service.ts): a
  pending-request table keyed by a numeric counter id, with a timeout timer
  per request, a stdout line handler, a process exit handler and an explicit
  disconnect.
- CoraLogixMCPConnection (the stdio variant, src/unnamed/part_005): a
  per-request event-listener machine with an accumulating response buffer,
  a hasResolved guard, stderr error-signal detection, and listener cleanup.

JavaScript strings are modelled as lists of characters, JSON.parse as an
executable recursive-descent parser over the JSON grammar fragment the
wire messages use (no escape sequences; every concrete input below is
escape-free ASCII), and the event-loop scheduling of callbacks as explicit
event sequences fed to step functions.
-/

set_option maxRecDepth 8192

namespace MCPVerify

/-- A JavaScript string, modelled as its list of characters. -/
abbrev Str := List Char

/-- Whitespace as recognised by JSON.parse and String.prototype.trim on the
inputs considered: space, newline, tab, carriage return. -/
def isWsChar (c : Char) : Bool :=
  c == ' ' || c == '\n' || c == '\t' || c == '\r'

/-- Model of String.prototype.trim: drop whitespace from both ends. -/
def trimWs (s : Str) : Str :=
  ((s.dropWhile isWsChar).reverse.dropWhile isWsChar).reverse

/-- Model of String.prototype.split with separator a newline character:
"a\nb".split of a newline gives ["a","b"], and the empty string gives [""]. -/
def splitNl : Str → List Str
  | [] => [[]]
  | c :: rest =>
    if c = '\n' then [] :: splitNl rest
    else
      match splitNl rest with
      | [] => [[c]]
      | l :: ls => (c :: l) :: ls

/-- JSON values, as produced by JSON.parse. -/
inductive Json where
  | jnull : Json
  | jbool (b : Bool) : Json
  | jnum (n : Int) : Json
  | jstr (s : Str) : Json
  | jarr (elems : List Json) : Json
  | jobj (fields : List (Str × Json)) : Json

/-- Body of a JSON string after the opening quote: characters up to the
closing quote. Escape sequences are not modelled (no input below uses one). -/
def parseStrBody : Str → Option (Str × Str)
  | [] => none
  | c :: rest =>
    if c = '"' then some ([], rest)
    else if c = '\\' then none
    else
      match parseStrBody rest with
      | some (s, r) => some (c :: s, r)
      | none => none

/-- Value of a run of decimal digit characters. -/
def digitsToNat (ds : List Char) : Nat :=
  ds.foldl (fun acc c => 10 * acc + (c.toNat - 48)) 0

mutual

/-- Fuel-indexed recursive-descent parser for one JSON value; returns the
value and the unconsumed remainder. Models JSON.parse on the grammar
fragment used by the wire protocol (objects, arrays, strings without
escapes, integers, booleans, null). -/
def pVal : Nat → Str → Option (Json × Str)
  | 0, _ => none
  | fuel + 1, s =>
    match s.dropWhile isWsChar with
    | [] => none
    | '"' :: rest =>
      match parseStrBody rest with
      | some (str, r) => some (Json.jstr str, r)
      | none => none
    | '{' :: rest =>
      match rest.dropWhile isWsChar with
      | '}' :: r2 => some (Json.jobj [], r2)
      | r1 =>
        match pMembers fuel r1 with
        | some (fields, r2) =>
          match r2.dropWhile isWsChar with
          | '}' :: r3 => some (Json.jobj fields, r3)
          | _ => none
        | none => none
    | '[' :: rest =>
      match rest.dropWhile isWsChar with
      | ']' :: r2 => some (Json.jarr [], r2)
      | r1 =>
        match pElems fuel r1 with
        | some (elems, r2) =>
          match r2.dropWhile isWsChar with
          | ']' :: r3 => some (Json.jarr elems, r3)
          | _ => none
        | none => none
    | s' =>
      if ("true".toList).isPrefixOf s' then some (Json.jbool true, s'.drop 4)
      else if ("false".toList).isPrefixOf s' then some (Json.jbool false, s'.drop 5)
      else if ("null".toList).isPrefixOf s' then some (Json.jnull, s'.drop 4)
      else
        match s' with
        | '-' :: d :: ds =>
          if d.isDigit then
            some (Json.jnum (-(Int.ofNat (digitsToNat ((d :: ds).takeWhile Char.isDigit)))),
              (d :: ds).dropWhile Char.isDigit)
          else none
        | d :: ds =>
          if d.isDigit then
            some (Json.jnum (Int.ofNat (digitsToNat ((d :: ds).takeWhile Char.isDigit))),
              (d :: ds).dropWhile Char.isDigit)
          else none
        | _ => none

/-- Members of a JSON object: key-value pairs separated by commas, leaving
everything from the closing brace onwards unconsumed. -/
def pMembers : Nat → Str → Option (List (Str × Json) × Str)
  | 0, _ => none
  | fuel + 1, s =>
    match s.dropWhile isWsChar with
    | '"' :: rest =>
      match parseStrBody rest with
      | some (key, r1) =>
        match r1.dropWhile isWsChar with
        | ':' :: r2 =>
          match pVal fuel r2 with
          | some (v, r3) =>
            match r3.dropWhile isWsChar with
            | ',' :: r4 =>
              match pMembers fuel r4 with
              | some (fields, r5) => some ((key, v) :: fields, r5)
              | none => none
            | r3' => some ([(key, v)], r3')
          | none => none
        | _ => none
      | none => none
    | _ => none

/-- Elements of a JSON array, separated by commas, leaving everything from
the closing bracket onwards unconsumed. -/
def pElems : Nat → Str → Option (List Json × Str)
  | 0, _ => none
  | fuel + 1, s =>
    match pVal fuel s with
    | some (v, r1) =>
      match r1.dropWhile isWsChar with
      | ',' :: r2 =>
        match pElems fuel r2 with
        | some (elems, r3) => some (v :: elems, r3)
        | none => none
      | r1' => some ([v], r1')
    | none => none

end

/-- Model of JSON.parse: parse one value and require only whitespace after
it; any other leftover text is a syntax error (returns none, since
JSON.parse throws). -/
def jsonParse (s : Str) : Option Json :=
  match pVal (s.length + 1) s with
  | some (j, rest) => if (rest.dropWhile isWsChar).isEmpty then some j else none
  | none => none

/-- Property lookup on a parsed JSON value: an absent key, or a lookup on a
non-object, gives none (the JS value undefined). Keys in the wire messages
are unique, so first-match lookup agrees with JS object semantics. -/
def jLookup (key : Str) : Json → Option Json
  | Json.jobj fields => fields.lookup key
  | _ => none

/-- JavaScript truthiness of a possibly-absent field value: undefined, null,
false, 0 and the empty string are falsy; objects and arrays are truthy. -/
def jsTruthy : Option Json → Bool
  | none => false
  | some Json.jnull => false
  | some (Json.jbool b) => b
  | some (Json.jnum n) => n != 0
  | some (Json.jstr s) => !s.isEmpty
  | some (Json.jarr _) => true
  | some (Json.jobj _) => true

example : jsonParse "\x7b\"id\":1\x7d".toList =
    some (Json.jobj [("id".toList, Json.jnum 1)]) := by rfl

example : jsonParse "\x7b\"id\"".toList = none := by rfl

example : jsonParse " \x7b\"a\":\x7b\"b\":true\x7d,\"c\":[1,-2]\x7d ".toList =
    some (Json.jobj [("a".toList, Json.jobj [("b".toList, Json.jbool true)]),
      ("c".toList, Json.jarr [Json.jnum 1, Json.jnum (-2)])]) := by rfl

/-! ## MCPClientService (backend/src/services/mcp-client.service.ts)

The request correlator: a pending-request table keyed by the numeric
counter id (the Map pendingRequests), one timeout timer per entry, the
handleResponse dispatcher, the process exit handler and disconnect.

Promise resolutions and rejections are modelled as emitted Settle actions
tagged with the id of the request being settled. Timer liveness is modelled
explicitly: a timerFire event can only have an effect while the timer of
that id is live (setTimeout fires at most once and never after
clearTimeout), which is recorded in the timers field. -/

/-- The error object of a JSON-RPC failure response. An error field that is
absent or null in the wire message is modelled as none: an error object is
always truthy in JS, so the if-test on response.error in the source is
exactly isSome here. -/
structure ErrObj where
  code : Int
  message : Str
deriving DecidableEq

/-- A parsed MCPResponse as handleResponse receives it: an optional id (a
message without an id looks up nothing in the table), an optional error
object and an optional result payload. -/
structure SvcResponse where
  id : Option Nat
  error : Option ErrObj
  result : Option Json

/-- State of MCPClientService: the pending table (ids, in insertion order),
the live timeout timers (newest first), the isConnected flag and whether
the spawned process with its stdin pipe is alive. -/
structure SvcState where
  pending : List Nat
  timers : List Nat
  connected : Bool
  procAlive : Bool

/-- One promise settlement: a resolution with the full response object, or
a rejection carrying the Error message, tagged by the id of the request it
settles. -/
inductive SvcSettle where
  | resolved (id : Nat) (r : SvcResponse) : SvcSettle
  | rejected (id : Nat) (msg : Str) : SvcSettle

/-- Events delivered to the service on the single-threaded event loop:
sendRequest storing a new entry, a framed response reaching handleResponse,
a request timer firing, the child process exit event, and disconnect. -/
inductive SvcEv where
  | dispatch (id : Nat) : SvcEv
  | response (r : SvcResponse) : SvcEv
  | timerFire (id : Nat) : SvcEv
  | procExit (code : Int) : SvcEv
  | disconnect : SvcEv

/-- Message of the Error thrown by sendRequest when its timeout fires. -/
def svcTimeoutMsg : Str := "MCP request timeout".toList

/-- Message of the Error used by disconnect for every pending request. -/
def svcClosedMsg : Str := "MCP connection closed".toList

/-- Message of the Error when sendRequest finds no writable process. -/
def svcNotConnectedMsg : Str := "MCP process not connected".toList

/-- Id of the request a settlement belongs to. -/
def SvcSettle.sid : SvcSettle → Nat
  | .resolved i _ => i
  | .rejected i _ => i

/-- One step of the service. dispatch: sendRequest either rejects at once
(no process) or creates a timer and stores the entry (Map.set keeps the
position of an existing key). response: handleResponse retires a matching
entry, cancelling its timer, rejecting on a present error and resolving
otherwise; an unmatched id is discarded. timerFire: the timeout callback
deletes the entry and rejects; it can only run while its timer is live.
procExit: the exit handler only clears isConnected and the process handle.
disconnect: every pending entry has its timer cleared and its promise
rejected, the table is cleared and the process killed; clearing each
entry's timeout is modelled as dropping the timers of pending ids, which
coincides with it whenever each id has at most one live timer (the
invariant proved below). -/
def svcStep (s : SvcState) : SvcEv → SvcState × List SvcSettle
  | .dispatch i =>
    if s.procAlive then
      ({ s with
          pending := if i ∈ s.pending then s.pending else s.pending ++ [i],
          timers := i :: s.timers }, [])
    else
      (s, [.rejected i svcNotConnectedMsg])
  | .response r =>
    match r.id with
    | none => (s, [])
    | some i =>
      if i ∈ s.pending then
        ({ s with pending := s.pending.filter (· ≠ i), timers := s.timers.erase i },
          [match r.error with
           | some e => .rejected i e.message
           | none => .resolved i r])
      else (s, [])
  | .timerFire i =>
    if i ∈ s.timers then
      ({ s with pending := s.pending.filter (· ≠ i), timers := s.timers.erase i },
        [.rejected i svcTimeoutMsg])
    else (s, [])
  | .procExit _ => ({ s with connected := false, procAlive := false }, [])
  | .disconnect =>
    ({ pending := [], timers := s.timers.filter (· ∉ s.pending),
       connected := false, procAlive := false },
      s.pending.map (fun i => .rejected i svcClosedMsg))

/-- Run the service over a sequence of event-loop callbacks, collecting the
settlements in order. -/
def svcRun (s : SvcState) : List SvcEv → SvcState × List SvcSettle
  | [] => (s, [])
  | ev :: evs =>
    let (s', out) := svcStep s ev
    let (s'', out') := svcRun s' evs
    (s'', out ++ out')

/-- The state right after a successful connect: empty table, live process. -/
def svcConnected : SvcState := ⟨[], [], true, true⟩

/-- Number of settlements of request i in an output list. -/
def settleCount (i : Nat) : List SvcSettle → Nat
  | [] => 0
  | a :: out => (if a.sid = i then 1 else 0) + settleCount i out

/-- Number of dispatch events for id i in an event sequence. -/
def dispatchCount (i : Nat) : List SvcEv → Nat
  | [] => 0
  | SvcEv.dispatch j :: evs => (if j = i then 1 else 0) + dispatchCount i evs
  | _ :: evs => dispatchCount i evs

example :
    (svcRun svcConnected
      [.dispatch 1, .timerFire 1, .response ⟨some 1, none, none⟩]).2.length = 1 := by
  decide

/-- The correlator invariant for one id: the table holds at most one entry
for it, at most one of its timers is live, and a live timer implies a live
entry (every path that removes the entry also cancels or consumes the
timer). -/
def SvcInv (i : Nat) (s : SvcState) : Prop :=
  s.pending.count i ≤ 1 ∧ s.timers.count i ≤ 1 ∧ (i ∈ s.timers → i ∈ s.pending)

lemma settleCount_append (i : Nat) (a b : List SvcSettle) :
    settleCount i (a ++ b) = settleCount i a + settleCount i b := by
  induction a with
  | nil => simp [settleCount]
  | cons x xs ih => simp [settleCount, ih]; omega

lemma dispatchCount_cons (i : Nat) (ev : SvcEv) (evs : List SvcEv) :
    dispatchCount i (ev :: evs) = dispatchCount i [ev] + dispatchCount i evs := by
  cases ev <;> simp [dispatchCount]

lemma settleCount_map_rejected (i : Nat) (pend : List Nat) (msg : Str) :
    settleCount i (pend.map (fun j => SvcSettle.rejected j msg)) = pend.count i := by
  induction pend with
  | nil => rfl
  | cons j l ih =>
    by_cases h : j = i
    · subst h
      simp [settleCount, SvcSettle.sid, List.count_cons, ih]
      omega
    · have h' : ¬ i = j := fun hh => h hh.symm
      simp [settleCount, SvcSettle.sid, List.count_cons, h, h', ih]

lemma count_filter_ne_self (l : List Nat) (i : Nat) :
    (l.filter (· ≠ i)).count i = 0 := by
  rw [List.count_eq_zero]
  intro h
  have := List.mem_filter.mp h
  simp at this

lemma count_filter_ne_other {i j : Nat} (h : i ≠ j) (l : List Nat) :
    (l.filter (· ≠ j)).count i = l.count i := by
  apply List.count_filter
  simpa using h

lemma count_filter_not_mem (l pend : List Nat) {i : Nat} (h : i ∈ pend) :
    (l.filter (· ∉ pend)).count i = 0 := by
  rw [List.count_eq_zero]
  intro hm
  have := (List.mem_filter.mp hm).2
  simp at this
  exact this h

/-- Per-step accounting for one id: provided the invariant holds and the
step is not a second dispatch of an id still pending, the number of
settlements the step emits for that id is covered by the drop in its
pending count (or by the dispatch itself), and the invariant is preserved. -/
lemma svcStep_bound (i : Nat) (s : SvcState) (ev : SvcEv)
    (hInv : SvcInv i s)
    (hd : dispatchCount i [ev] + s.pending.count i ≤ 1) :
    settleCount i (svcStep s ev).2 + (svcStep s ev).1.pending.count i ≤
      dispatchCount i [ev] + s.pending.count i ∧ SvcInv i (svcStep s ev).1 := by
  obtain ⟨h1, h2, h3⟩ := hInv
  cases ev with
  | dispatch j =>
    by_cases hpa : s.procAlive
    · have hstep : svcStep s (SvcEv.dispatch j) =
          ({ s with
              pending := if j ∈ s.pending then s.pending else s.pending ++ [j],
              timers := j :: s.timers }, []) := by
        simp [svcStep, hpa]
      rw [hstep]
      by_cases hji : i = j
      · subst hji
        have hdi : dispatchCount i [SvcEv.dispatch i] = 1 := by simp [dispatchCount]
        rw [hdi] at hd ⊢
        have hc0 : s.pending.count i = 0 := by omega
        have hnp : i ∉ s.pending := by
          intro h; have := List.count_pos_iff.mpr h; omega
        have hnt : i ∉ s.timers := fun h => hnp (h3 h)
        have hct : s.timers.count i = 0 := by
          by_contra h
          exact hnt (List.count_pos_iff.mp (by omega))
        refine ⟨?_, ?_, ?_, ?_⟩
        · simp [settleCount, hnp, List.count_append, List.count_cons, hc0]
        · simp [hnp, List.count_append, List.count_cons, hc0]
        · simp [List.count_cons, hct]
        · intro _
          simp [hnp]
      · have hji' : ¬ j = i := fun h => hji h.symm
        have hdi : dispatchCount i [SvcEv.dispatch j] = 0 := by
          simp [dispatchCount, hji']
        rw [hdi] at hd ⊢
        have hcnt : (if j ∈ s.pending then s.pending else s.pending ++ [j]).count i
            = s.pending.count i := by
          by_cases hmem : j ∈ s.pending
          · simp [hmem]
          · simp [hmem, List.count_append, List.count_cons, hji]
        refine ⟨?_, ?_, ?_, ?_⟩
        · simp [settleCount, hcnt]
        · simp only [hcnt]
          exact h1
        · simp [List.count_cons, hji, h2]
        · intro ht
          rcases List.mem_cons.mp ht with rfl | ht'
          · exact absurd rfl hji
          · have := h3 ht'
            by_cases hmem : j ∈ s.pending <;> simp [hmem, this]
    · have hstep : svcStep s (SvcEv.dispatch j) =
          (s, [SvcSettle.rejected j svcNotConnectedMsg]) := by
        simp [svcStep, hpa]
      rw [hstep]
      by_cases hji : i = j
      · subst hji
        exact ⟨by simp [settleCount, SvcSettle.sid, dispatchCount], h1, h2, h3⟩
      · have hji' : ¬ j = i := fun h => hji h.symm
        exact ⟨by simp [settleCount, SvcSettle.sid, dispatchCount, hji'], h1, h2, h3⟩
  | response r =>
    cases hid : r.id with
    | none =>
      have hstep : svcStep s (SvcEv.response r) = (s, []) := by simp [svcStep, hid]
      rw [hstep]
      exact ⟨by simp [settleCount, dispatchCount], h1, h2, h3⟩
    | some j =>
      by_cases hmem : j ∈ s.pending
      · have hstep : svcStep s (SvcEv.response r) =
            ({ s with
                pending := s.pending.filter (· ≠ j),
                timers := s.timers.erase j },
             [match r.error with
              | some e => SvcSettle.rejected j e.message
              | none => SvcSettle.resolved j r]) := by
          simp [svcStep, hid, hmem]
        rw [hstep]
        have hdc : dispatchCount i [SvcEv.response r] = 0 := by simp [dispatchCount]
        rw [hdc] at hd ⊢
        by_cases hji : i = j
        · subst hji
          have hc1 : 0 < s.pending.count i := List.count_pos_iff.mpr hmem
          have hset : settleCount i
              [match r.error with
               | some e => SvcSettle.rejected i e.message
               | none => SvcSettle.resolved i r] = 1 := by
            cases r.error <;> simp [settleCount, SvcSettle.sid]
          refine ⟨?_, ?_, ?_, ?_⟩
          · simp only [hset, count_filter_ne_self]
            omega
          · rw [count_filter_ne_self]
            omega
          · rw [List.count_erase_self]
            omega
          · intro ht
            exfalso
            have hpos := List.count_pos_iff.mpr ht
            rw [List.count_erase_self] at hpos
            omega
        · have hji' : ¬ j = i := fun h => hji h.symm
          have hset : settleCount i
              [match r.error with
               | some e => SvcSettle.rejected j e.message
               | none => SvcSettle.resolved j r] = 0 := by
            cases r.error <;> simp [settleCount, SvcSettle.sid, hji']
          refine ⟨?_, ?_, ?_, ?_⟩
          · simp only [hset, count_filter_ne_other hji]
            omega
          · simp only [count_filter_ne_other hji]
            exact h1
          · rw [List.count_erase_of_ne hji]
            exact h2
          · intro ht
            have hti : i ∈ s.timers := List.mem_of_mem_erase ht
            have hpi : i ∈ s.pending := h3 hti
            exact List.mem_filter.mpr ⟨hpi, by simpa using hji⟩
      · have hstep : svcStep s (SvcEv.response r) = (s, []) := by
          simp [svcStep, hid, hmem]
        rw [hstep]
        exact ⟨by simp [settleCount, dispatchCount], h1, h2, h3⟩
  | timerFire j =>
    by_cases hmem : j ∈ s.timers
    · have hstep : svcStep s (SvcEv.timerFire j) =
          ({ s with
              pending := s.pending.filter (· ≠ j),
              timers := s.timers.erase j },
           [SvcSettle.rejected j svcTimeoutMsg]) := by
        simp [svcStep, hmem]
      rw [hstep]
      have hdc : dispatchCount i [SvcEv.timerFire j] = 0 := by simp [dispatchCount]
      rw [hdc] at hd ⊢
      by_cases hji : i = j
      · subst hji
        have hpi : i ∈ s.pending := h3 hmem
        have hc1 : 0 < s.pending.count i := List.count_pos_iff.mpr hpi
        refine ⟨?_, ?_, ?_, ?_⟩
        · rw [count_filter_ne_self]
          have hone : settleCount i [SvcSettle.rejected i svcTimeoutMsg] = 1 := by
            simp [settleCount, SvcSettle.sid]
          rw [hone]
          omega
        · rw [count_filter_ne_self]
          omega
        · rw [List.count_erase_self]
          omega
        · intro ht
          exfalso
          have hpos := List.count_pos_iff.mpr ht
          rw [List.count_erase_self] at hpos
          omega
      · have hji' : ¬ j = i := fun h => hji h.symm
        refine ⟨?_, ?_, ?_, ?_⟩
        · rw [count_filter_ne_other hji]
          simp [settleCount, SvcSettle.sid, hji']
        · simp only [count_filter_ne_other hji]
          exact h1
        · rw [List.count_erase_of_ne hji]
          exact h2
        · intro ht
          have hti : i ∈ s.timers := List.mem_of_mem_erase ht
          have hpi : i ∈ s.pending := h3 hti
          exact List.mem_filter.mpr ⟨hpi, by simpa using hji⟩
    · have hstep : svcStep s (SvcEv.timerFire j) = (s, []) := by
        simp [svcStep, hmem]
      rw [hstep]
      exact ⟨by simp [settleCount, dispatchCount], h1, h2, h3⟩
  | procExit code =>
    have hstep : svcStep s (SvcEv.procExit code) =
        ({ s with connected := false, procAlive := false }, []) := rfl
    rw [hstep]
    exact ⟨by simp [settleCount, dispatchCount], h1, h2, h3⟩
  | disconnect =>
    have hstep : svcStep s SvcEv.disconnect =
        (⟨[], s.timers.filter (· ∉ s.pending), false, false⟩,
         s.pending.map (fun j => SvcSettle.rejected j svcClosedMsg)) := rfl
    rw [hstep]
    refine ⟨?_, ?_, ?_, ?_⟩
    · simp [settleCount_map_rejected, dispatchCount]
    · simp
    · by_cases hpi : i ∈ s.pending
      · rw [count_filter_not_mem _ _ hpi]
        omega
      · exact le_trans ((List.filter_sublist _).count_le i) h2
    · intro ht
      exfalso
      have hti : i ∈ s.timers := List.mem_of_mem_filter ht
      have hnp := (List.mem_filter.mp ht).2
      simp at hnp
      exact hnp (h3 hti)

/-- Running any event sequence from a state satisfying the invariant, with
at most one dispatch of an id counted across the sequence and the table,
settles that id at most that often. -/
lemma svcRun_bound (i : Nat) : ∀ (evs : List SvcEv) (s : SvcState),
    SvcInv i s → dispatchCount i evs + s.pending.count i ≤ 1 →
    settleCount i (svcRun s evs).2 + (svcRun s evs).1.pending.count i ≤
      dispatchCount i evs + s.pending.count i := by
  intro evs
  induction evs with
  | nil =>
    intro s _ _
    simp [svcRun, settleCount, dispatchCount]
  | cons ev evs ih =>
    intro s hInv hd
    rcases hstep : svcStep s ev with ⟨s', out⟩
    rw [dispatchCount_cons] at hd ⊢
    have hone : dispatchCount i [ev] + s.pending.count i ≤ 1 := by omega
    have hb := svcStep_bound i s ev hInv hone
    rw [hstep] at hb
    obtain ⟨hb1, hb2⟩ := hb
    simp only at hb1 hb2
    have hd' : dispatchCount i evs + s'.pending.count i ≤ 1 := by omega
    have hih := ih s' hb2 hd'
    rcases hrun : svcRun s' evs with ⟨s'', out'⟩
    rw [hrun] at hih
    have hrw : svcRun s (ev :: evs) = (s'', out ++ out') := by
      simp [svcRun, hstep, hrun]
    rw [hrw]
    simp only [settleCount_append]
    simp only at hih
    omega


/-! ## CoraLogixMCPConnection (src/unnamed/part_005)

The stdio variant. Each call to sendMCPRequest registers three listeners
(stdout, stderr, error) on the connection emitter, accumulates stdout data
in a per-request responseData buffer, guards every settle path with a
hasResolved flag, and removes all three listeners through cleanup before
settling. sendRawRequest differs only in its buffer scan (its line-by-line
pass sits in the catch of the whole-buffer parse and aborts at the first
unparseable line) and in not clearing its timeout on the stdout path. -/

/-- A settlement of one stdio request: a resolution with the result field
of the matching message, a rejection carrying the error value of the
matching message, or a rejection with an Error message (stderr signal,
transport error, timeout). -/
inductive ROut where
  | resolve (v : Option Json) : ROut
  | rejectErr (e : Json) : ROut
  | rejectMsg (msg : Str) : ROut

/-- Settle decision once a JSON message with the matching id is found:
reject when the message carries a truthy error field (the payload is that
error value), resolve with the result field otherwise. -/
def settleOf (j : Json) : ROut :=
  if jsTruthy (jLookup "error".toList j) then
    ROut.rejectErr ((jLookup "error".toList j).getD Json.jnull)
  else ROut.resolve (jLookup "result".toList j)

/-- Strict equality test parsed.id === requestId for a string request id: a
message whose id field is absent, numeric or otherwise non-string never
matches. -/
def idMatches (j : Json) (rid : Str) : Bool :=
  match jLookup "id".toList j with
  | some (Json.jstr s) => s == rid
  | _ => false

/-- Line-by-line pass of sendMCPRequest: each line is trimmed and parsed in
its own try, so an unparseable line is skipped and scanning continues. -/
def lineScanMCP (rid : Str) : List Str → Option ROut
  | [] => none
  | l :: ls =>
    match jsonParse (trimWs l) with
    | some j => if idMatches j rid then some (settleOf j) else lineScanMCP rid ls
    | none => lineScanMCP rid ls

/-- Buffer scan of sendMCPRequest onStdout: first try the whole trimmed
buffer as one JSON value (settling only on an id match), then fall back to
the line-by-line pass over nonblank lines. -/
def scanMCP (rid : Str) (buf : Str) : Option ROut :=
  let t := trimWs buf
  let whole : Option ROut :=
    if t.isEmpty then none
    else
      match jsonParse t with
      | some j => if idMatches j rid then some (settleOf j) else none
      | none => none
  match whole with
  | some o => some o
  | none => lineScanMCP rid ((splitNl buf).filter (fun l => !(trimWs l).isEmpty))

/-- Line-by-line pass of sendRawRequest: the parses run inside one try, so
the first line that fails to parse throws and aborts the whole pass (the
catch just keeps accumulating). -/
def lineScanRaw (rid : Str) : List Str → Option ROut
  | [] => none
  | l :: ls =>
    match jsonParse l with
    | some j => if idMatches j rid then some (settleOf j) else lineScanRaw rid ls
    | none => none

/-- Buffer scan of sendRawRequest onStdout: try the whole trimmed buffer
first; the line-by-line pass only runs from the catch, so a whole-buffer
parse that succeeds with a mismatched id settles nothing. -/
def scanRaw (rid : Str) (buf : Str) : Option ROut :=
  match jsonParse (trimWs buf) with
  | some j => if idMatches j rid then some (settleOf j) else none
  | none => lineScanRaw rid ((splitNl buf).filter (fun l => !(trimWs l).isEmpty))

/-- Model of String.prototype.includes: the needle occurs as a contiguous
run somewhere in the haystack. -/
def strIncludes (needle : Str) : Str → Bool
  | [] => needle.isEmpty
  | c :: rest => needle.isPrefixOf (c :: rest) || strIncludes needle rest

/-- The stderr error-signal test of onStderr: stderr data is only treated
as fatal when it contains an Error: marker and is not mcp-remote traffic
logging. -/
def stderrSignal (data : Str) : Bool :=
  strIncludes "Error:".toList data
    && !(strIncludes "[Local→Remote]".toList data)
    && !(strIncludes "[Remote→Local]".toList data)

/-- Rejection message of the sendMCPRequest and sendRawRequest timeout. -/
def p5TimeoutMsg : Str := "MCP request timeout (120 seconds)".toList

/-- The hard-coded setTimeout duration of the stdio variant, milliseconds. -/
def p5TimeoutMs : Nat := 120000

/-- The three listener registrations a sendMCPRequest call makes. -/
inductive LKind where
  | lstdout : LKind
  | lstderr : LKind
  | lerror : LKind
deriving DecidableEq

/-- Per-request state of one sendMCPRequest call: the hasResolved guard,
the accumulating responseData buffer, which of the three listeners this
request still has registered on the emitter, and whether its timeout timer
is live (not yet fired or cleared). -/
structure ReqState where
  hasResolved : Bool
  buf : Str
  listeners : List LKind
  timerLive : Bool

/-- Events that can reach one request: emitted stdout or stderr data, the
connection error event, and its own timeout firing. -/
inductive REv where
  | stdoutData (chunk : Str) : REv
  | stderrData (chunk : Str) : REv
  | errorEvent (msg : Str) : REv
  | timerFire : REv

/-- State right after sendMCPRequest registers its listeners and timer. -/
def reqInit : ReqState := ⟨false, [], [LKind.lstdout, LKind.lstderr, LKind.lerror], true⟩

/-- One event delivered to one sendMCPRequest call. An event reaches a
handler only while the listener is registered. onStdout returns at once if
hasResolved, otherwise appends and scans; a settle sets hasResolved, runs
cleanup (removing all three listeners) and clears the timeout. onStderr
settles only on the error-signal pattern; it and onError run cleanup but do
not clear the timeout. The timeout callback is one-shot and checks
hasResolved before settling. -/
def mcpStep (rid : Str) (s : ReqState) : REv → ReqState × List ROut
  | .stdoutData c =>
    if LKind.lstdout ∈ s.listeners then
      if s.hasResolved then (s, [])
      else
        match scanMCP rid (s.buf ++ c) with
        | some o => (⟨true, s.buf ++ c, [], false⟩, [o])
        | none => ({ s with buf := s.buf ++ c }, [])
    else (s, [])
  | .stderrData c =>
    if LKind.lstderr ∈ s.listeners then
      if stderrSignal c then
        if s.hasResolved then (s, [])
        else (⟨true, s.buf, [], s.timerLive⟩, [ROut.rejectMsg ("MCP Process Error: ".toList ++ c)])
      else (s, [])
    else (s, [])
  | .errorEvent msg =>
    if LKind.lerror ∈ s.listeners then
      if s.hasResolved then (s, [])
      else (⟨true, s.buf, [], s.timerLive⟩, [ROut.rejectMsg msg])
    else (s, [])
  | .timerFire =>
    if s.timerLive then
      if s.hasResolved then ({ s with timerLive := false }, [])
      else (⟨true, s.buf, [], false⟩, [ROut.rejectMsg p5TimeoutMsg])
    else (s, [])

/-- Deliver a sequence of events to one sendMCPRequest call. -/
def mcpRun (rid : Str) (s : ReqState) : List REv → ReqState × List ROut
  | [] => (s, [])
  | ev :: evs =>
    let (s', out) := mcpStep rid s ev
    let (s'', out') := mcpRun rid s' evs
    (s'', out ++ out')

/-- The sendRawRequest framer restricted to its stdout path: the
accumulating buffer plus the hasResolved flag (after a settle the stdout
listener is removed by cleanup, so further chunks are not delivered). -/
structure RawBuf where
  hasResolved : Bool
  buf : Str

/-- Initial sendRawRequest framer state: empty responseData. -/
def rawInit : RawBuf := ⟨false, []⟩

/-- Feed one stdout chunk to the sendRawRequest framer. -/
def rawFeedChunk (rid : Str) (s : RawBuf) (c : Str) : RawBuf × List ROut :=
  if s.hasResolved then (s, [])
  else
    match scanRaw rid (s.buf ++ c) with
    | some o => (⟨true, s.buf ++ c⟩, [o])
    | none => (⟨false, s.buf ++ c⟩, [])

/-- Feed a sequence of stdout chunks to the sendRawRequest framer. -/
def rawFeed (rid : Str) (s : RawBuf) : List Str → RawBuf × List ROut
  | [] => (s, [])
  | c :: cs =>
    let (s', out) := rawFeedChunk rid s c
    let (s'', out') := rawFeed rid s' cs
    (s'', out ++ out')

/-- The stdout data handler of MCPClientService.connect: each chunk is
split on newlines, blank lines are dropped, each remaining line is parsed
in its own try and handed to handleResponse on success; a line that fails
to parse is logged and discarded. There is no buffer across chunks. -/
def serviceChunkEmits (chunk : Str) : List Json :=
  ((splitNl chunk).filter (fun l => !(trimWs l).isEmpty)).filterMap jsonParse

/-- Messages the service stdout handler emits over a chunk sequence. -/
def serviceFeed (chunks : List Str) : List Json :=
  (chunks.map serviceChunkEmits).flatten

/-- Request-id generation of sendMCPRequest: a template string from
Date.now() and a 9-character suffix from Math.random().toString(36). The
two oracle values are explicit arguments. -/
def genRequestId (now : Nat) (rand : Str) : Str :=
  "req_".toList ++ (Nat.repr now).toList ++ "_".toList ++ rand

/-- Ids produced by a sequence of sendMCPRequest calls whose oracle reads
(Date.now value, random suffix) are given by the list. -/
def part005IdsFromOracle (oracle : List (Nat × Str)) : List Str :=
  oracle.map (fun p => genRequestId p.1 p.2)

/-- Request-id generation of MCPClientService.getNextRequestId: the
pre-increment of the instance counter, returning the new counter and id. -/
def getNextRequestId (requestId : Nat) : Nat × Nat :=
  (requestId + 1, requestId + 1)

/-- Counter value after k calls to getNextRequestId starting from start. -/
def svcCounterAfter (start : Nat) : Nat → Nat
  | 0 => start
  | k + 1 => (getNextRequestId (svcCounterAfter start k)).1

/-- Id returned by the k-th call (0-based) to getNextRequestId. -/
def svcIdAt (start k : Nat) : Nat :=
  (getNextRequestId (svcCounterAfter start k)).2

/-! ## Session construction and configuration

Environment-driven construction of the three client objects: the HTTP SDK
variant CoralogixMCPClient.getConnectionObject, the stdio variant
CoraLogixMCPConnection.getConnectionObject, and getMCPServerConfig of
mcp.config.ts consumed by MCPClientService.connect. -/

/-- The environment variables these construction paths read. A variable
that is unset is none. -/
structure Env where
  coralogixMcpKey : Option String
  coralogixApiKey : Option String
  mcpCoralogixCommand : Option String
  mcpCoralogixAutoConnect : Option String

/-- JavaScript a || b for string operands: the empty string is falsy. -/
def jsOr (a : Option String) (b : String) : String :=
  match a with
  | some s => if s = "" then b else s
  | none => b

/-- The config object of the HTTP SDK variant. -/
structure CoralogixMCPClientConfig where
  apiKey : String
  region : Option String

/-- CoralogixMCPClient.getConnectionObject: reads CORALOGIX_MCP_KEY then
CORALOGIX_API_KEY with an empty default, and throws when the result is
empty; otherwise constructs the client with that key and region ap1. -/
def httpGetConnectionObject (env : Env) : Except String CoralogixMCPClientConfig :=
  let apiKey := jsOr env.coralogixMcpKey (jsOr env.coralogixApiKey "")
  if apiKey = "" then
    Except.error "CORALOGIX_MCP_KEY or CORALOGIX_API_KEY environment variable is required"
  else Except.ok ⟨apiKey, some "ap1"⟩

/-- The stdio connection object: only the api key it was constructed with
(undefined when the variable is unset, per the as-string cast). -/
structure CoraLogixMCPConnection where
  apiKey : Option String

/-- CoraLogixMCPConnection.getConnectionObject: constructs the connection
from CORALOGIX_MCP_KEY with no presence check and connects at once; there
is no failure path. -/
def p5GetConnectionObject (env : Env) : CoraLogixMCPConnection :=
  ⟨env.coralogixMcpKey⟩

/-- Server config record of getMCPServerConfig. -/
structure MCPServerConfig where
  name : String
  command : String
  args : List String
  envApiKey : String
  autoConnect : Bool

/-- Model of String.prototype.toLowerCase on the character list (the
server type names involved are ASCII). -/
def jsToLowerCase (s : String) : Str :=
  s.toList.map Char.toLower

/-- getMCPServerConfig of mcp.config.ts: for the coralogix server type it
always returns a config, defaulting the command to npx and the api key to
the empty string; any other type gives null. -/
def getMCPServerConfig (serverType : String) (env : Env) : Option MCPServerConfig :=
  if jsToLowerCase serverType = "coralogix".toList then
    some
      { name := "coralogix-server"
        command := jsOr env.mcpCoralogixCommand "npx"
        args := ["mcp-remote", "https://api.ap1.coralogix.com/mgmt/api/v1/mcp",
          "--header", "Authorization:" ++ jsOr env.coralogixApiKey ""]
        envApiKey := jsOr env.coralogixApiKey ""
        autoConnect := env.mcpCoralogixAutoConnect == some "true" }
  else none

/-- The mcpConfig.timeout default of mcp.config.ts, milliseconds. -/
def mcpConfigTimeoutMs : Nat := 30000

/-! ## CoralogixMCPClient.initialize (backend/src/mcp/coralogix-mcp.ts)

Two concurrent initialize() calls modelled as tasks over the shared
isInitialized flag. Both guard reads (the one in initialize and the one in
connect) execute synchronously before the first await, so they collapse to
one atomic checks step; after that the task proceeds through its awaits
(handshake send inside client.connect, the tools/list call, the best-effort
docs call) without re-reading the flag, and sets the flag last. -/

/-- The atomic steps of one initialize() call, separated by await points. -/
inductive InitStep where
  | checks : InitStep
  | sendHandshake : InitStep
  | sendToolsList : InitStep
  | sendDocs : InitStep
  | setFlag : InitStep

/-- Wire traffic the steps produce. -/
inductive SendKind where
  | handshake : SendKind
  | toolsList : SendKind
  | docs : SendKind
deriving DecidableEq

/-- The step list of one initialize() call. -/
def initProg : List InitStep :=
  [InitStep.checks, InitStep.sendHandshake, InitStep.sendToolsList,
   InitStep.sendDocs, InitStep.setFlag]

/-- Shared state of two concurrent initialize() calls: the isInitialized
flag and each task's remaining steps. -/
structure InitState where
  flag : Bool
  taskA : List InitStep
  taskB : List InitStep

/-- Execute the next step of one task: checks returns early (dropping the
rest of the task) when the flag is already set; setFlag stores true; the
send steps emit their traffic. -/
def taskStep (flag : Bool) (prog : List InitStep) : Bool × List InitStep × List SendKind :=
  match prog with
  | [] => (flag, [], [])
  | InitStep.checks :: rest => if flag then (flag, [], []) else (flag, rest, [])
  | InitStep.sendHandshake :: rest => (flag, rest, [SendKind.handshake])
  | InitStep.sendToolsList :: rest => (flag, rest, [SendKind.toolsList])
  | InitStep.sendDocs :: rest => (flag, rest, [SendKind.docs])
  | InitStep.setFlag :: rest => (true, rest, [])

/-- Run the step of the scheduled task (true schedules task A). -/
def initStepRun (s : InitState) (who : Bool) : InitState × List SendKind :=
  if who then
    match taskStep s.flag s.taskA with
    | (f, p, out) => ({ s with flag := f, taskA := p }, out)
  else
    match taskStep s.flag s.taskB with
    | (f, p, out) => ({ s with flag := f, taskB := p }, out)

/-- Run a whole schedule, collecting the wire traffic in order. -/
def initRun (s : InitState) : List Bool → InitState × List SendKind
  | [] => (s, [])
  | w :: ws =>
    let (s', out) := initStepRun s w
    let (s'', out') := initRun s' ws
    (s'', out ++ out')

/-- Two initialize() calls racing on a fresh session. -/
def freshBoth : InitState := ⟨false, initProg, initProg⟩

/-! ## MCPClientService.executeQuery -/

/-- The result record executeQuery returns in every case. -/
structure QueryResult where
  success : Bool
  data : Option Json
  error : Option Str
  executionTime : Nat

/-- executeQuery: the whole body runs in one try. A failed lazy connect or
a rejected sendRequest lands in the catch, which returns success false with
the error message. A resolved response returns success false with the
protocol error message when response.error is present, and success true
with response.result otherwise. executionTime is included on every path.
The prompt-to-DataPrime query construction between the connect and the
send is pure string building that cannot throw and does not influence the
result envelope, so it is not part of this model; the two awaited
outcomes are passed as arguments. -/
def executeQuery (connected : Bool) (connectOutcome : Except Str Unit)
    (sendOutcome : Except Str SvcResponse) (elapsed : Nat) : QueryResult :=
  match (if connected then Except.ok () else connectOutcome) with
  | Except.error e => ⟨false, none, some e, elapsed⟩
  | Except.ok _ =>
    match sendOutcome with
    | Except.error e => ⟨false, none, some e, elapsed⟩
    | Except.ok resp =>
      match resp.error with
      | some e => ⟨false, none, some e.message, elapsed⟩
      | none => ⟨true, resp.result, none, elapsed⟩

example :
    (rawFeed "req_1".toList rawInit
      ("\x7b\"jsonrpc\":\"2.0\",\"id\":\"req_1\",\"result\":5\x7d".toList.map
        (fun c => [c]))).2 = [ROut.resolve (some (Json.jnum 5))] := by rfl

example :
    (rawFeed "req_1".toList rawInit
      ["\x7b\"jsonrpc\":\"2.0\",\"id\":\"req_1\",\"result\":5\x7d".toList]).2 =
      [ROut.resolve (some (Json.jnum 5))] := by rfl

example :
    serviceFeed ["\x7b\"jsonrpc\":\"2.0\",\"id\":1,\"result\":7\x7d".toList] =
      [Json.jobj [("jsonrpc".toList, Json.jstr "2.0".toList),
        ("id".toList, Json.jnum 1), ("result".toList, Json.jnum 7)]] := by rfl

example :
    serviceFeed ["\x7b\"jsonrpc\":\"2.0\",\"id\"".toList,
      ":1,\"result\":7\x7d".toList] = [] := by rfl

example :
    (mcpRun "req_1".toList reqInit
      [REv.timerFire,
       REv.stdoutData "\x7b\"jsonrpc\":\"2.0\",\"id\":\"req_1\",\"result\":5\x7d".toList]).2 =
      [ROut.rejectMsg p5TimeoutMsg] := by rfl

example :
    (initRun freshBoth [true, false, true, true, true, true, false, false, false, false]).2 =
      [SendKind.handshake, SendKind.toolsList, SendKind.docs,
       SendKind.handshake, SendKind.toolsList, SendKind.docs] := by rfl

example :
    (initRun freshBoth [true, true, true, true, true, false, false, false, false, false]).2 =
      [SendKind.handshake, SendKind.toolsList, SendKind.docs] := by rfl

/-- The cleanup discipline of one stdio request: once hasResolved is set,
all three listeners have been removed. -/
def ReqInv (s : ReqState) : Prop :=
  s.hasResolved = true → s.listeners = []

/-- Every step of one sendMCPRequest call either leaves the settle state
and the listener set unchanged and emits nothing, or settles exactly once,
from an unsettled state, with the listener set emptied in the same step. -/
lemma mcpStep_cases (rid : Str) (s : ReqState) (ev : REv) :
    ((mcpStep rid s ev).2 = [] ∧ (mcpStep rid s ev).1.hasResolved = s.hasResolved ∧
      (mcpStep rid s ev).1.listeners = s.listeners) ∨
    ((mcpStep rid s ev).2.length = 1 ∧ (mcpStep rid s ev).1.hasResolved = true ∧
      (mcpStep rid s ev).1.listeners = [] ∧ s.hasResolved = false) := by
  cases ev with
  | stdoutData c =>
    by_cases h1 : LKind.lstdout ∈ s.listeners
    · by_cases h2 : s.hasResolved
      · left
        simp [mcpStep, h1, h2]
      · cases hscan : scanMCP rid (s.buf ++ c) with
        | none =>
          left
          simp [mcpStep, h1, h2, hscan]
        | some o =>
          right
          simp only [Bool.not_eq_true] at h2
          simp [mcpStep, h1, h2, hscan]
    · left
      simp [mcpStep, h1]
  | stderrData c =>
    by_cases h1 : LKind.lstderr ∈ s.listeners
    · by_cases hsig : stderrSignal c
      · by_cases h2 : s.hasResolved
        · left
          simp [mcpStep, h1, hsig, h2]
        · right
          simp only [Bool.not_eq_true] at h2
          simp [mcpStep, h1, hsig, h2]
      · left
        simp [mcpStep, h1, hsig]
    · left
      simp [mcpStep, h1]
  | errorEvent msg =>
    by_cases h1 : LKind.lerror ∈ s.listeners
    · by_cases h2 : s.hasResolved
      · left
        simp [mcpStep, h1, h2]
      · right
        simp only [Bool.not_eq_true] at h2
        simp [mcpStep, h1, h2]
    · left
      simp [mcpStep, h1]
  | timerFire =>
    by_cases hl : s.timerLive
    · by_cases h2 : s.hasResolved
      · left
        simp [mcpStep, hl, h2]
      · right
        simp only [Bool.not_eq_true] at h2
        simp [mcpStep, hl, h2]
    · left
      simp [mcpStep, hl]

/-- At most one settlement per sendMCPRequest call over any event
sequence; none at all once the call has settled. -/
lemma mcpRun_le_one (rid : Str) : ∀ (evs : List REv) (s : ReqState),
    (mcpRun rid s evs).2.length ≤ (if s.hasResolved = true then 0 else 1) := by
  intro evs
  induction evs with
  | nil =>
    intro s
    simp only [mcpRun, List.length_nil]
    split <;> omega
  | cons ev evs ih =>
    intro s
    rcases hstep : mcpStep rid s ev with ⟨s', out⟩
    rcases hrun : mcpRun rid s' evs with ⟨s'', out'⟩
    have heq : mcpRun rid s (ev :: evs) = (s'', out ++ out') := by
      simp [mcpRun, hstep, hrun]
    rw [heq]
    have hc := mcpStep_cases rid s ev
    rw [hstep] at hc
    have hih := ih s'
    rw [hrun] at hih
    simp only [List.length_append]
    rcases hc with ⟨ho, hr, _⟩ | ⟨ho, hr, _, hfalse⟩
    · subst ho
      simp only [List.length_nil] at *
      rw [hr] at hih
      omega
    · have hih0 : out'.length = 0 := by
        rw [hr] at hih
        simpa using hih
      rw [ho, hih0, hfalse]
      simp

/-- The cleanup discipline is preserved by every event. -/
lemma mcpRun_inv (rid : Str) : ∀ (evs : List REv) (s : ReqState),
    ReqInv s → ReqInv (mcpRun rid s evs).1 := by
  intro evs
  induction evs with
  | nil =>
    intro s h
    simpa [mcpRun] using h
  | cons ev evs ih =>
    intro s h
    rcases hstep : mcpStep rid s ev with ⟨s', out⟩
    rcases hrun : mcpRun rid s' evs with ⟨s'', out'⟩
    have heq : mcpRun rid s (ev :: evs) = (s'', out ++ out') := by
      simp [mcpRun, hstep, hrun]
    rw [heq]
    have hc := mcpStep_cases rid s ev
    rw [hstep] at hc
    have hinv' : ReqInv s' := by
      rcases hc with ⟨_, hr, hl⟩ | ⟨_, hr, hl, _⟩
      · intro hres
        rw [hl]
        exact h (hr ▸ hres)
      · intro _
        exact hl
    have := ih s' hinv'
    rw [hrun] at this
    exact this

/-- Once the sendRawRequest framer has settled (its stdout listener was
removed by cleanup), further chunks change nothing and emit nothing. -/
lemma rawFeed_settled (rid : Str) : ∀ (cs : List Str) (b : Str),
    rawFeed rid ⟨true, b⟩ cs = (⟨true, b⟩, []) := by
  intro cs
  induction cs with
  | nil => intro b; rfl
  | cons c cs ih =>
    intro b
    simp [rawFeed, rawFeedChunk, ih]

/-- Reassembly lemma for the sendRawRequest framer: as long as every
strict prefix of the full message scans to nothing, feeding any chunk
decomposition of the rest settles exactly once, with the scan outcome of
the full message. -/
lemma rawFeed_reassemble (rid : Str) (w : Str) (o : ROut)
    (hscan : scanRaw rid w = some o)
    (hpre : ((List.range w.length).all
      (fun n => (scanRaw rid (w.take n)).isNone)) = true) :
    ∀ (cs : List Str) (p : Str), p ++ cs.flatten = w → cs.flatten ≠ [] →
    (rawFeed rid ⟨false, p⟩ cs).2 = [o] := by
  have hpre' : ∀ n, n < w.length → scanRaw rid (w.take n) = none := by
    intro n hn
    have := List.all_eq_true.mp hpre n (List.mem_range.mpr hn)
    exact Option.isNone_iff_eq_none.mp (by simpa using this)
  intro cs
  induction cs with
  | nil =>
    intro p _ hne
    exact absurd rfl hne
  | cons c cs ih =>
    intro p hjoin hne
    by_cases hflat : cs.flatten = []
    · have hw : p ++ c = w := by
        have h2 : p ++ (c ++ cs.flatten) = w := by
          simpa [List.flatten_cons] using hjoin
        rw [hflat, List.append_nil] at h2
        exact h2
      have hchunk : rawFeedChunk rid ⟨false, p⟩ c = (⟨true, w⟩, [o]) := by
        simp only [rawFeedChunk]
        rw [if_neg (by simp)]
        rw [hw, hscan]
      simp [rawFeed, hchunk, rawFeed_settled]
    · have hw : (p ++ c) ++ cs.flatten = w := by
        rw [List.append_assoc]
        simpa using hjoin
      have hlt : (p ++ c).length < w.length := by
        have hpos : 0 < cs.flatten.length := List.length_pos.mpr hflat
        have h2 := congrArg List.length hw
        simp only [List.length_append] at h2
        simp only [List.length_append]
        omega
      have htake : w.take (p ++ c).length = p ++ c := by
        rw [← hw]
        exact List.take_left _ _
      have hnone : scanRaw rid (p ++ c) = none := by
        have := hpre' (p ++ c).length hlt
        rwa [htake] at this
      have hchunk : rawFeedChunk rid ⟨false, p⟩ c = (⟨false, p ++ c⟩, []) := by
        simp only [rawFeedChunk]
        rw [if_neg (by simp)]
        rw [hnone]
      have := ih (p ++ c) hw hflat
      simp [rawFeed, hchunk]
      exact this

/-- A newline-free string splits to itself. -/
lemma splitNl_no_newline : ∀ (m : Str), '\n' ∉ m → splitNl m = [m] := by
  intro m
  induction m with
  | nil => intro _; rfl
  | cons c rest ih =>
    intro h
    have hc : ¬ c = '\n' := fun hh => h (hh ▸ List.mem_cons_self c rest)
    have hrest : '\n' ∉ rest := fun hh => h (List.mem_cons_of_mem c hh)
    simp only [splitNl, if_neg hc, ih hrest]

/-- Splitting around an explicit newline separates the two sides when the
first side is newline-free. -/
lemma splitNl_append : ∀ (m1 m2 : Str), '\n' ∉ m1 →
    splitNl (m1 ++ '\n' :: m2) = m1 :: splitNl m2 := by
  intro m1
  induction m1 with
  | nil =>
    intro m2 _
    simp [splitNl]
  | cons c rest ih =>
    intro m2 h
    have hc : ¬ c = '\n' := fun hh => h (hh ▸ List.mem_cons_self c rest)
    have hrest : '\n' ∉ rest := fun hh => h (List.mem_cons_of_mem c hh)
    simp only [List.cons_append, splitNl, if_neg hc, List.append_eq, ih m2 hrest]

/-- A task list that is the untouched initialize() program, or already
done, stays that way under any scheduling once the flag is set, emitting
nothing: the checks guard returns before any traffic. -/
lemma initRun_ready : ∀ (sched : List Bool) (a b : List InitStep),
    (a = initProg ∨ a = []) → (b = initProg ∨ b = []) →
    (initRun ⟨true, a, b⟩ sched).2 = [] := by
  intro sched
  induction sched with
  | nil =>
    intro a b _ _
    rfl
  | cons w ws ih =>
    intro a b ha hb
    cases w with
    | true =>
      rcases ha with rfl | rfl
      · have hstep : initStepRun ⟨true, initProg, b⟩ true = (⟨true, [], b⟩, []) := by
          simp [initStepRun, taskStep, initProg]
        simp only [initRun, hstep]
        simpa using ih [] b (Or.inr rfl) hb
      · have hstep : initStepRun ⟨true, [], b⟩ true = (⟨true, [], b⟩, []) := by
          simp [initStepRun, taskStep]
        simp only [initRun, hstep]
        simpa using ih [] b (Or.inr rfl) hb
    | false =>
      rcases hb with rfl | rfl
      · have hstep : initStepRun ⟨true, a, initProg⟩ false = (⟨true, a, []⟩, []) := by
          simp [initStepRun, taskStep, initProg]
        simp only [initRun, hstep]
        simpa using ih a [] ha (Or.inr rfl)
      · have hstep : initStepRun ⟨true, a, []⟩ false = (⟨true, a, []⟩, []) := by
          simp [initStepRun, taskStep]
        simp only [initRun, hstep]
        simpa using ih a [] ha (Or.inr rfl)

/-- The counter after k calls has advanced by k. -/
lemma svcCounterAfter_eq (start : Nat) : ∀ k, svcCounterAfter start k = start + k := by
  intro k
  induction k with
  | zero => rfl
  | succ k ih =>
    simp [svcCounterAfter, getNextRequestId, ih]
    omega

/-- The k-th id of the service counter is start + k + 1. -/
lemma svcIdAt_eq (start k : Nat) : svcIdAt start k = start + k + 1 := by
  simp [svcIdAt, getNextRequestId, svcCounterAfter_eq]

/-! ## Claim theorems -/

/-- C1: every in-flight request is retired at most once, by whichever of
response arrival, timeout or transport failure comes first. In the service
correlator, any event sequence containing at most one dispatch of an id
settles that id at most once; a request that timed out is not resolved by
a tardy response with the same id (the entry is gone, the response is
discarded), and a request that resolved normally is unaffected by its
timer (the timer was cleared, so it cannot fire). In the stdio variant,
one sendMCPRequest call settles at most once over any event sequence. -/
theorem c1_at_most_once_retire (i : Nat) (evs : List SvcEv) (rid : Str) (evs2 : List REv)
    (hd : dispatchCount i evs ≤ 1) :
    settleCount i (svcRun svcConnected evs).2 ≤ 1 ∧
    (mcpRun rid reqInit evs2).2.length ≤ 1 ∧
    (svcRun svcConnected
      [SvcEv.dispatch 1, SvcEv.timerFire 1,
       SvcEv.response ⟨some 1, none, none⟩]).2 = [SvcSettle.rejected 1 svcTimeoutMsg] ∧
    (svcRun svcConnected
      [SvcEv.dispatch 1, SvcEv.response ⟨some 1, none, none⟩,
       SvcEv.timerFire 1]).2 = [SvcSettle.resolved 1 ⟨some 1, none, none⟩] := by
  refine ⟨?_, ?_, rfl, rfl⟩
  · have hInv : SvcInv i svcConnected :=
      ⟨by simp [svcConnected], by simp [svcConnected], by simp [svcConnected]⟩
    have hb := svcRun_bound i evs svcConnected hInv (by simpa [svcConnected] using hd)
    simp only [svcConnected, List.count_nil] at hb hd ⊢
    omega
  · have := mcpRun_le_one rid evs2 reqInit
    simpa [reqInit] using this

/-- Witness for C1 at a concrete run: one dispatch of id 2 followed by its
timeout and a tardy response, and a concrete stdio request hit by its
timeout and then a tardy matching stdout message. -/
theorem c1_at_most_once_retire_witness :
    settleCount 2 (svcRun svcConnected
      [SvcEv.dispatch 2, SvcEv.timerFire 2,
       SvcEv.response ⟨some 2, none, none⟩]).2 ≤ 1 ∧
    (mcpRun "req_1".toList reqInit
      [REv.timerFire,
       REv.stdoutData "\x7b\"jsonrpc\":\"2.0\",\"id\":\"req_1\",\"result\":5\x7d".toList]).2.length ≤ 1 ∧
    (svcRun svcConnected
      [SvcEv.dispatch 1, SvcEv.timerFire 1,
       SvcEv.response ⟨some 1, none, none⟩]).2 = [SvcSettle.rejected 1 svcTimeoutMsg] ∧
    (svcRun svcConnected
      [SvcEv.dispatch 1, SvcEv.response ⟨some 1, none, none⟩,
       SvcEv.timerFire 1]).2 = [SvcSettle.resolved 1 ⟨some 1, none, none⟩] :=
  c1_at_most_once_retire 2
    [SvcEv.dispatch 2, SvcEv.timerFire 2, SvcEv.response ⟨some 2, none, none⟩]
    "req_1".toList
    [REv.timerFire,
     REv.stdoutData "\x7b\"jsonrpc\":\"2.0\",\"id\":\"req_1\",\"result\":5\x7d".toList]
    (by decide)

/-- C3 counterexample: the process exit handler of MCPClientService (the
transport-close path) with three requests outstanding retires nothing and
rejects nothing — the pending table still holds all three ids and no
settlement is emitted, contradicting the claim that a transport close
rejects every pending future and empties the table. -/
theorem c3_transport_close_keeps_pending_counterexample :
    (svcStep ⟨[1, 2, 3], [1, 2, 3], true, true⟩ (SvcEv.procExit 0)).1.pending = [1, 2, 3] ∧
    (svcStep ⟨[1, 2, 3], [1, 2, 3], true, true⟩ (SvcEv.procExit 0)).2 = [] :=
  ⟨rfl, rfl⟩

/-- C3 amended: only the explicit disconnect() path retires every pending
entry — rejecting each with the connection-closed error, one settlement per
entry, and leaving the table empty; the process exit handler (transport
close) only clears the connection flags and leaves the pending table and
its timers untouched, so pending callers wait for their own timeouts. -/
theorem c3_disconnect_fanout_amended (s : SvcState) (c : Int) :
    (svcStep s SvcEv.disconnect).1.pending = [] ∧
    (svcStep s SvcEv.disconnect).2 =
      s.pending.map (fun i => SvcSettle.rejected i svcClosedMsg) ∧
    (svcStep s SvcEv.disconnect).2.length = s.pending.length ∧
    (svcStep s (SvcEv.procExit c)).1.pending = s.pending ∧
    (svcStep s (SvcEv.procExit c)).2 = [] := by
  refine ⟨rfl, rfl, ?_, rfl, rfl⟩
  simp [svcStep]

/-- C5 counterexample: the Error the service rejects with on timeout is the
fixed string MCP request timeout, which contains no digit at all — in
particular not the configured duration (default 30000 ms) — so the claim
that the Timeout error carries the configured duration fails on this
variant. -/
theorem c5_timeout_message_counterexample :
    (svcStep ⟨[5], [5], true, true⟩ (SvcEv.timerFire 5)).2 =
      [SvcSettle.rejected 5 svcTimeoutMsg] ∧
    svcTimeoutMsg.all (fun ch => !ch.isDigit) = true ∧
    strIncludes (Nat.repr mcpConfigTimeoutMs).toList svcTimeoutMsg = false := by
  refine ⟨by rfl, by decide, by decide⟩

/-- C5 amended: when a deadline fires before a response, the entry is
retired and the caller is rejected with a Timeout error — exactly one
settlement, never swallowed — in both variants; the stdio variant's
message carries its 120-second hard-coded duration, while the service
variant's message carries no duration. -/
theorem c5_timeout_amended (s : SvcState) (i : Nat) (rid : Str) (s2 : ReqState)
    (h1 : i ∈ s.timers) (h2 : s2.timerLive = true) (h3 : s2.hasResolved = false) :
    (svcStep s (SvcEv.timerFire i)).2 = [SvcSettle.rejected i svcTimeoutMsg] ∧
    (svcStep s (SvcEv.timerFire i)).1.pending.count i = 0 ∧
    (mcpStep rid s2 REv.timerFire).2 = [ROut.rejectMsg p5TimeoutMsg] ∧
    (mcpStep rid s2 REv.timerFire).1.listeners = [] ∧
    strIncludes "120".toList p5TimeoutMsg = true := by
  have hstep : svcStep s (SvcEv.timerFire i) =
      ({ s with
          pending := s.pending.filter (· ≠ i),
          timers := s.timers.erase i },
       [SvcSettle.rejected i svcTimeoutMsg]) := by
    simp [svcStep, h1]
  refine ⟨?_, ?_, ?_, ?_, by decide⟩
  · rw [hstep]
  · rw [hstep]
    exact count_filter_ne_self s.pending i
  · simp [mcpStep, h2, h3]
  · simp [mcpStep, h2, h3]

/-- Witness for C5 at concrete states: a live timer for id 7 in the
service and a fresh stdio request hit by its timer. -/
theorem c5_timeout_amended_witness :
    (svcStep ⟨[7], [7], true, true⟩ (SvcEv.timerFire 7)).2 =
      [SvcSettle.rejected 7 svcTimeoutMsg] ∧
    (svcStep ⟨[7], [7], true, true⟩ (SvcEv.timerFire 7)).1.pending.count 7 = 0 ∧
    (mcpStep "req_9".toList reqInit REv.timerFire).2 = [ROut.rejectMsg p5TimeoutMsg] ∧
    (mcpStep "req_9".toList reqInit REv.timerFire).1.listeners = [] ∧
    strIncludes "120".toList p5TimeoutMsg = true :=
  c5_timeout_amended ⟨[7], [7], true, true⟩ 7 "req_9".toList reqInit
    (by decide) rfl rfl

/-- C7: for every framed response, handleResponse retires the matching
entry — the entry leaves the table, its timer is cancelled, and exactly one
settlement is emitted, a rejection with the error message exactly when the
message carries an error field and a resolution with the response
otherwise — while a response whose id matches no entry, or that has no id,
is discarded with the table and all settlements untouched. -/
theorem c7_handle_response_dispatch (s : SvcState) (r : SvcResponse) (i k : Nat)
    (hid : r.id = some i) (hmem : i ∈ s.pending) (ht : s.timers.count i ≤ 1)
    (hk : k ∉ s.pending) :
    (svcStep s (SvcEv.response r)).1.pending = s.pending.filter (· ≠ i) ∧
    i ∉ (svcStep s (SvcEv.response r)).1.pending ∧
    i ∉ (svcStep s (SvcEv.response r)).1.timers ∧
    (svcStep s (SvcEv.response r)).2 =
      [match r.error with
       | some e => SvcSettle.rejected i e.message
       | none => SvcSettle.resolved i r] ∧
    svcStep s (SvcEv.response { r with id := some k }) = (s, []) ∧
    svcStep s (SvcEv.response { r with id := none }) = (s, []) := by
  have hstep : svcStep s (SvcEv.response r) =
      ({ s with
          pending := s.pending.filter (· ≠ i),
          timers := s.timers.erase i },
       [match r.error with
        | some e => SvcSettle.rejected i e.message
        | none => SvcSettle.resolved i r]) := by
    simp [svcStep, hid, hmem]
  refine ⟨?_, ?_, ?_, ?_, ?_, ?_⟩
  · rw [hstep]
  · rw [hstep]
    intro hmm
    have := (List.mem_filter.mp hmm).2
    simp at this
  · rw [hstep]
    intro hmm
    have hpos := List.count_pos_iff.mpr hmm
    rw [List.count_erase_self] at hpos
    omega
  · rw [hstep]
  · simp [svcStep, hk]
  · simp [svcStep]

/-- Witness for C7 at a concrete state: two pending requests, an error
response for id 1, and a response for the absent id 9. -/
theorem c7_handle_response_dispatch_witness :
    (svcStep ⟨[1, 2], [1, 2], true, true⟩
      (SvcEv.response ⟨some 1, some ⟨-32600, "bad request".toList⟩, none⟩)).1.pending =
      [1, 2].filter (· ≠ 1) ∧
    1 ∉ (svcStep ⟨[1, 2], [1, 2], true, true⟩
      (SvcEv.response ⟨some 1, some ⟨-32600, "bad request".toList⟩, none⟩)).1.pending ∧
    1 ∉ (svcStep ⟨[1, 2], [1, 2], true, true⟩
      (SvcEv.response ⟨some 1, some ⟨-32600, "bad request".toList⟩, none⟩)).1.timers ∧
    (svcStep ⟨[1, 2], [1, 2], true, true⟩
      (SvcEv.response ⟨some 1, some ⟨-32600, "bad request".toList⟩, none⟩)).2 =
      [match (⟨some 1, some ⟨-32600, "bad request".toList⟩, none⟩ : SvcResponse).error with
       | some e => SvcSettle.rejected 1 e.message
       | none => SvcSettle.resolved 1 ⟨some 1, some ⟨-32600, "bad request".toList⟩, none⟩] ∧
    svcStep ⟨[1, 2], [1, 2], true, true⟩
      (SvcEv.response { (⟨some 1, some ⟨-32600, "bad request".toList⟩, none⟩ : SvcResponse)
        with id := some 9 }) = (⟨[1, 2], [1, 2], true, true⟩, []) ∧
    svcStep ⟨[1, 2], [1, 2], true, true⟩
      (SvcEv.response { (⟨some 1, some ⟨-32600, "bad request".toList⟩, none⟩ : SvcResponse)
        with id := none }) = (⟨[1, 2], [1, 2], true, true⟩, []) :=
  c7_handle_response_dispatch ⟨[1, 2], [1, 2], true, true⟩
    ⟨some 1, some ⟨-32600, "bad request".toList⟩, none⟩ 1 9
    rfl (by decide) (by decide) (by decide)

/-- C2 counterexample: the service stdout handler, which the claim cites as
a framer, keeps no buffer across chunks — feeding it one JSON message split
into two chunks emits nothing (each fragment fails to parse and is
discarded), while feeding the same bytes as one chunk emits the one
message. -/
theorem c2_split_message_lost_counterexample :
    serviceFeed ["\x7b\"jsonrpc\":\"2.0\",\"id\"".toList, ":1,\"result\":7\x7d".toList] = [] ∧
    serviceFeed ["\x7b\"jsonrpc\":\"2.0\",\"id\"".toList ++ ":1,\"result\":7\x7d".toList] =
      [Json.jobj [("jsonrpc".toList, Json.jstr "2.0".toList),
        ("id".toList, Json.jnum 1), ("result".toList, Json.jnum 7)]] :=
  ⟨rfl, rfl⟩

/-- C2 amended: the accumulating-buffer behaviour holds of the stdio
per-request framer (sendRawRequest): a message whose strict prefixes scan
to nothing, fed in any chunk decomposition, settles exactly once, with the
same outcome as feeding it whole, because an unparseable buffer is neither
an error nor discarded. The two-messages-in-order behaviour holds of the
service stdout handler: two newline-joined parseable messages in one chunk
emit exactly those two messages in order. Neither framer has both
properties. -/
theorem c2_framing_amended (rid w : Str) (o : ROut) (cs : List Str)
    (m1 m2 : Str) (j1 j2 : Json)
    (hscan : scanRaw rid w = some o)
    (hpre : ((List.range w.length).all
      (fun n => (scanRaw rid (w.take n)).isNone)) = true)
    (hjoin : cs.flatten = w) (hne : w ≠ [])
    (h1 : jsonParse m1 = some j1) (h2 : jsonParse m2 = some j2)
    (hn1 : '\n' ∉ m1) (hn2 : '\n' ∉ m2)
    (ht1 : (trimWs m1).isEmpty = false) (ht2 : (trimWs m2).isEmpty = false) :
    (rawFeed rid rawInit cs).2 = [o] ∧
    (rawFeed rid rawInit [w]).2 = [o] ∧
    serviceFeed [m1 ++ '\n' :: m2] = [j1, j2] := by
  refine ⟨?_, ?_, ?_⟩
  · have := rawFeed_reassemble rid w o hscan hpre cs []
      (by simpa using hjoin) (by rw [hjoin]; exact hne)
    exact this
  · have := rawFeed_reassemble rid w o hscan hpre [w] []
      (by simp) (by simpa using hne)
    exact this
  · have hsplit : splitNl (m1 ++ '\n' :: m2) = [m1, m2] := by
      rw [splitNl_append m1 m2 hn1, splitNl_no_newline m2 hn2]
    simp [serviceFeed, serviceChunkEmits, hsplit, ht1, ht2, h1, h2]

/-- Witness for C2 at a concrete message fed byte-by-byte to the stdio
framer, and two concrete messages newline-joined in one service chunk. -/
theorem c2_framing_amended_witness :
    (rawFeed "req_1".toList rawInit
      ("\x7b\"jsonrpc\":\"2.0\",\"id\":\"req_1\",\"result\":5\x7d".toList.map
        (fun c => [c]))).2 = [ROut.resolve (some (Json.jnum 5))] ∧
    (rawFeed "req_1".toList rawInit
      ["\x7b\"jsonrpc\":\"2.0\",\"id\":\"req_1\",\"result\":5\x7d".toList]).2 =
      [ROut.resolve (some (Json.jnum 5))] ∧
    serviceFeed ["\x7b\"id\":1,\"result\":7\x7d".toList ++
      '\n' :: "\x7b\"id\":2,\"result\":8\x7d".toList] =
      [Json.jobj [("id".toList, Json.jnum 1), ("result".toList, Json.jnum 7)],
       Json.jobj [("id".toList, Json.jnum 2), ("result".toList, Json.jnum 8)]] :=
  c2_framing_amended "req_1".toList
    "\x7b\"jsonrpc\":\"2.0\",\"id\":\"req_1\",\"result\":5\x7d".toList
    (ROut.resolve (some (Json.jnum 5)))
    ("\x7b\"jsonrpc\":\"2.0\",\"id\":\"req_1\",\"result\":5\x7d".toList.map
      (fun c => [c]))
    "\x7b\"id\":1,\"result\":7\x7d".toList
    "\x7b\"id\":2,\"result\":8\x7d".toList
    (Json.jobj [("id".toList, Json.jnum 1), ("result".toList, Json.jnum 7)])
    (Json.jobj [("id".toList, Json.jnum 2), ("result".toList, Json.jnum 8)])
    rfl rfl (by rfl) (by decide) rfl rfl (by decide) (by decide) rfl rfl

/-- C4 counterexample: two initialize() calls racing on a fresh session,
each passing the isInitialized guard before either sets it, send two
handshakes and two tools/list requests over the transport, not one. -/
theorem c4_concurrent_initialize_counterexample :
    ((initRun freshBoth
      [true, false, true, true, true, true, false, false, false, false]).2.count
        SendKind.handshake) = 2 ∧
    ((initRun freshBoth
      [true, false, true, true, true, true, false, false, false, false]).2.count
        SendKind.toolsList) = 2 :=
  ⟨by decide, by decide⟩

/-- C4 amended: a call made when the session is already initialized is a
no-op — from a state with the flag set, any scheduling of fresh or finished
initialize() calls sends nothing — and a second call that starts only after
the first finished sends nothing more, so the sequential double call sends
exactly one handshake and one tools/list; but there is no in-flight guard,
so a call made while the handshake is in flight starts a second one. -/
theorem c4_initialize_amended (sched : List Bool) (a b : List InitStep)
    (ha : a = initProg ∨ a = []) (hb : b = initProg ∨ b = []) :
    (initRun ⟨true, a, b⟩ sched).2 = [] ∧
    (initRun freshBoth
      [true, true, true, true, true, false, false, false, false, false]).2 =
      [SendKind.handshake, SendKind.toolsList, SendKind.docs] :=
  ⟨initRun_ready sched a b ha hb, rfl⟩

/-- Witness for C4: a concrete schedule over an already-initialized
session sends nothing. -/
theorem c4_initialize_amended_witness :
    (initRun ⟨true, initProg, initProg⟩ [true, false, true, false]).2 = [] ∧
    (initRun freshBoth
      [true, true, true, true, true, false, false, false, false, false]).2 =
      [SendKind.handshake, SendKind.toolsList, SendKind.docs] :=
  c4_initialize_amended [true, false, true, false] initProg initProg
    (Or.inl rfl) (Or.inl rfl)

/-- C6 counterexample: the stdio id generator depends only on the values
read from Date.now() and Math.random(); two dispatches that observe the
same millisecond and the same random suffix — which nothing in the code
rules out — produce the same id, so the dispatched-id list has a
duplicate. -/
theorem c6_id_collision_counterexample :
    part005IdsFromOracle
      [(1700000000000, "k3j9q0a1z".toList), (1700000000000, "k3j9q0a1z".toList)] =
      [genRequestId 1700000000000 "k3j9q0a1z".toList,
       genRequestId 1700000000000 "k3j9q0a1z".toList] ∧
    ¬ (part005IdsFromOracle
      [(1700000000000, "k3j9q0a1z".toList), (1700000000000, "k3j9q0a1z".toList)]).Nodup :=
  ⟨rfl, by decide⟩

/-- C6 amended: the service counter ids are strictly increasing across
calls, hence distinct calls never share an id; the stdio ids of two calls
within the same millisecond coincide exactly when their random suffixes
coincide, so uniqueness there rests on the random draw, not on the
generator. -/
theorem c6_id_uniqueness_amended (start i j t : Nat) (r1 r2 : Str)
    (hij : i ≠ j) (hr : genRequestId t r1 = genRequestId t r2) :
    svcIdAt start i ≠ svcIdAt start j ∧ r1 = r2 := by
  constructor
  · rw [svcIdAt_eq, svcIdAt_eq]
    omega
  · unfold genRequestId at hr
    exact List.append_cancel_left hr

/-- Witness for C6: the first two counter ids differ; equal stdio ids in
one millisecond force equal suffixes. -/
theorem c6_id_uniqueness_amended_witness :
    svcIdAt 0 0 ≠ svcIdAt 0 1 ∧ "abc".toList = "abc".toList :=
  c6_id_uniqueness_amended 0 0 1 3 "abc".toList "abc".toList (by decide) rfl

/-- C8 counterexample: with no credential in the environment, the stdio
variant's getConnectionObject still constructs its connection (api key
undefined) and getMCPServerConfig still returns a full config whose
Authorization header carries the empty key — neither construction path
fails, contradicting the claim that every construction path fails fast. -/
theorem c8_missing_credential_counterexample :
    p5GetConnectionObject ⟨none, none, none, none⟩ = ⟨none⟩ ∧
    getMCPServerConfig "coralogix" ⟨none, none, none, none⟩ =
      some ⟨"coralogix-server", "npx",
        ["mcp-remote", "https://api.ap1.coralogix.com/mgmt/api/v1/mcp",
         "--header", "Authorization:"], "", false⟩ :=
  ⟨rfl, by rfl⟩

/-- C8 amended: only the HTTP SDK variant fails fast — its
getConnectionObject succeeds exactly when the credential chain yields a
nonempty key; the stdio variant constructs with whatever
CORALOGIX_MCP_KEY holds, check-free, and the service config path always
returns a config. -/
theorem c8_credential_amended (env : Env) :
    (httpGetConnectionObject env).isOk =
      !(jsOr env.coralogixMcpKey (jsOr env.coralogixApiKey "") == "") ∧
    p5GetConnectionObject env = ⟨env.coralogixMcpKey⟩ ∧
    (getMCPServerConfig "coralogix" env).isSome = true := by
  refine ⟨?_, rfl, ?_⟩
  · unfold httpGetConnectionObject
    by_cases h : jsOr env.coralogixMcpKey (jsOr env.coralogixApiKey "") = ""
    · simp [h, Except.isOk, Except.toBool]
    · simp [h, Except.isOk, Except.toBool, beq_iff_eq]
  · unfold getMCPServerConfig
    rw [if_pos (by decide)]
    rfl

/-- C9: executeQuery is total and never rejects — every path returns a
QueryResult carrying the elapsed time; a resolved response yields success
false with the protocol error message when an error field is present and
success true with the result otherwise; a rejected send (timeout,
connection loss) or a failed lazy connect yields success false with that
error message. -/
theorem c9_execute_query_total (connected : Bool) (co : Except Str Unit)
    (so : Except Str SvcResponse) (resp : SvcResponse) (msg msg2 : Str) (elapsed : Nat) :
    (executeQuery connected co so elapsed).executionTime = elapsed ∧
    executeQuery true co (Except.ok resp) elapsed =
      (match resp.error with
       | some e => ⟨false, none, some e.message, elapsed⟩
       | none => ⟨true, resp.result, none, elapsed⟩) ∧
    executeQuery true co (Except.error msg) elapsed = ⟨false, none, some msg, elapsed⟩ ∧
    executeQuery false (Except.error msg2) so elapsed = ⟨false, none, some msg2, elapsed⟩ := by
  refine ⟨?_, rfl, rfl, rfl⟩
  cases connected with
  | false =>
    cases co with
    | error e => rfl
    | ok u =>
      cases so with
      | error e => rfl
      | ok resp' =>
        rcases hre : resp'.error with _ | e <;> simp [executeQuery, hre]
  | true =>
    cases so with
    | error e => rfl
    | ok resp' =>
      rcases hre : resp'.error with _ | e <;> simp [executeQuery, hre]

/-- C10: a sendMCPRequest call registers exactly the three listeners
stdout, stderr and error; every step either settles nothing and leaves the
listener set alone, or settles — and then the same step has already
removed all three listeners; over any event sequence the call settles at
most once and a settled call retains no listener on the emitter. -/
theorem c10_listener_cleanup (rid : Str) (s : ReqState) (ev : REv) (evs : List REv) :
    reqInit.listeners = [LKind.lstdout, LKind.lstderr, LKind.lerror] ∧
    ((mcpStep rid s ev).2 = [] ∨ (mcpStep rid s ev).1.listeners = []) ∧
    (mcpRun rid reqInit evs).2.length ≤ 1 ∧
    ((mcpRun rid reqInit evs).1.hasResolved = false ∨
      (mcpRun rid reqInit evs).1.listeners = []) := by
  refine ⟨rfl, ?_, ?_, ?_⟩
  · rcases mcpStep_cases rid s ev with ⟨ho, _, _⟩ | ⟨_, _, hl, _⟩
    · exact Or.inl ho
    · exact Or.inr hl
  · have := mcpRun_le_one rid evs reqInit
    simpa [reqInit] using this
  · have hinv := mcpRun_inv rid evs reqInit (by intro h; simp [reqInit] at h)
    by_cases h : (mcpRun rid reqInit evs).1.hasResolved = true
    · exact Or.inr (hinv h)
    · exact Or.inl (by simpa using h)

end MCPVerify
